import Mathlib

/-!
Verification of `get_resilabels.py`: a converter from gesamt structural-alignment
text reports to per-protein `.label` files.

The development shallowly embeds the Python script.  Strings are modelled as
`List Char` (`Str`), the Python string operations used by the script (`strip`,
`split`, substring containment, slicing with negative indices, `int()`,
`str()`, `str.replace`, `os.path.splitext`) are defined by recursion, and the
fallible parts of the script (list indexing, `int()` conversion, dictionary
lookup) are modelled with `Except Unit`.  List slicing with unset (`None`)
bounds is valid Python and is modelled as the corresponding total slice.
-/

set_option autoImplicit false

abbrev Str := List Char

/-- Single-quote character (codepoint 39), spelled via `Char.ofNat`. -/
def sqc : Char := Char.ofNat 39

/-- Python `str.strip`'s whitespace set: space, tab, LF, VT, FF, CR. -/
def isSpace (c : Char) : Bool :=
  c == ' ' || c == Char.ofNat 9 || c == Char.ofNat 10 || c == Char.ofNat 11 ||
    c == Char.ofNat 12 || c == Char.ofNat 13

/-- Python `s.strip()`: drop whitespace from both ends. -/
def pyStrip (s : Str) : Str :=
  ((s.dropWhile isSpace).reverse.dropWhile isSpace).reverse

/-- `true` iff the character `c` occurs in `s` (Python `c in s` for a 1-char `c`). -/
def hasChar (c : Char) : Str → Bool
  | [] => false
  | x :: rest => x == c || hasChar c rest

/-- Prefix test on character lists. -/
def isPre : Str → Str → Bool
  | [], _ => true
  | _ :: _, [] => false
  | a :: as, b :: bs => a == b && isPre as bs

/-- Python substring containment `sub in s` (recursing over `s`). -/
def hasSub (sub : Str) : Str → Bool
  | [] => sub.isEmpty
  | c :: rest => isPre sub (c :: rest) || hasSub sub rest

/-- List membership test for tokens (Python `tok in list_of_tokens`). -/
def hasTok (t : Str) : List Str → Bool
  | [] => false
  | x :: rest => x == t || hasTok t rest

/-- Python `s.split(sep)` for a single-character separator. -/
def splitChar (sep : Char) : Str → List Str
  | [] => [[]]
  | c :: rest =>
    if c == sep then [] :: splitChar sep rest
    else
      match splitChar sep rest with
      | [] => [[c]]
      | r :: rs => (c :: r) :: rs

/-- Python `s.split(sep)` for the three-character separator `sep = [a, b, c]`
(used by the script with separator `"| |"`); leftmost, non-overlapping. -/
def split3 (a b c : Char) : Str → List Str
  | x :: y :: z :: rest =>
    if x == a && y == b && z == c then [] :: split3 a b c rest
    else
      match split3 a b c (y :: z :: rest) with
      | [] => [[x]]
      | r :: rs => (x :: r) :: rs
  | s => [s]

/-- Python `s.replace(x, y)` specialised to 3-character pattern and replacement
(used by the script for `"|*|" -> "| |"`); leftmost, non-overlapping. -/
def replace3 (a b c ra rb rc : Char) : Str → Str
  | x :: y :: z :: rest =>
    if x == a && y == b && z == c then ra :: rb :: rc :: replace3 a b c ra rb rc rest
    else x :: replace3 a b c ra rb rc (y :: z :: rest)
  | s => s

/-- Clamp a (possibly negative) Python slice index to `[0, n]`. -/
def pyIdx (n : Nat) (i : Int) : Nat :=
  let j : Int := if i < 0 then (n : Int) + i else i
  if j < 0 then 0 else min j.toNat n

/-- Python slice `s[a:b]` with Python index conventions. -/
def pySlice (s : Str) (a b : Int) : Str :=
  (s.take (pyIdx s.length b)).drop (pyIdx s.length a)

/-- Python slice `s[a:]`. -/
def pySliceFrom (s : Str) (a : Int) : Str :=
  s.drop (pyIdx s.length a)

/-- Decimal digit value of a character, if it is one of `0`-`9`. -/
def digitVal (c : Char) : Option Nat :=
  if 48 ≤ c.toNat && c.toNat ≤ 57 then some (c.toNat - 48) else none

/-- Accumulate decimal digits; fails on any non-digit character. -/
def parseDigitsAux : Str → Nat → Option Nat
  | [], acc => some acc
  | c :: rest, acc =>
    match digitVal c with
    | some d => parseDigitsAux rest (acc * 10 + d)
    | none => none

/-- Parse a nonempty all-digit string as a natural number. -/
def parseDigits : Str → Option Nat
  | [] => none
  | s => parseDigitsAux s 0

/-- Python `int(s)`: strip whitespace, optional sign, decimal digits. -/
def pyInt (s : Str) : Option Int :=
  match pyStrip s with
  | '-' :: rest => (parseDigits rest).map (fun n => -(n : Int))
  | '+' :: rest => (parseDigits rest).map (fun n => (n : Int))
  | t => (parseDigits t).map (fun n => (n : Int))

/-- The decimal digit character for `n` (callers pass `n < 10`; larger
arguments also yield a digit). -/
def digitChar (n : Nat) : Char :=
  if n = 0 then '0' else if n = 1 then '1' else if n = 2 then '2' else if n = 3 then '3'
  else if n = 4 then '4' else if n = 5 then '5' else if n = 6 then '6' else if n = 7 then '7'
  else if n = 8 then '8' else '9'

/-- Decimal digits of `n`, most significant first, with recursion fuel. -/
def natDigitsAux : Nat → Nat → Str
  | 0, _ => []
  | fuel + 1, n =>
    if n < 10 then [digitChar n]
    else natDigitsAux fuel (n / 10) ++ [digitChar (n % 10)]

/-- Decimal digits of `n` (Python `str` of a nonnegative int). -/
def natDigits (n : Nat) : Str := natDigitsAux (n + 1) n

/-- Python `str(i)` for an int. -/
def intToStr (i : Int) : Str :=
  if i < 0 then '-' :: natDigits (-i).toNat else natDigits i.toNat

/-- Concatenate a list of strings (Python `"".join`). -/
def joinAll (lines : List Str) : Str := lines.flatten

/-- Python `sep.join` for a single-character separator. -/
def joinWith (c : Char) : List Str → Str
  | [] => []
  | [x] => x
  | x :: y :: rest => x ++ c :: joinWith c (y :: rest)

/-- Python `str.rfind(c)`: index of the last occurrence, or `-1`. -/
def rfindAux (c : Char) : Str → Option Nat
  | [] => none
  | x :: rest =>
    match rfindAux c rest with
    | some i => some (i + 1)
    | none => if x == c then some 0 else none

/-- Python `str.rfind(c)` as an `Int` (`-1` when absent). -/
def rfindPos (c : Char) (s : Str) : Int :=
  match rfindAux c s with
  | some i => (i : Int)
  | none => -1

/-- `os.path.splitext` (posix): split off the extension at the last dot,
provided it lies after the last `/` and the base name is not all dots. -/
def pySplitext (p : Str) : Str × Str :=
  let si := rfindPos '/' p
  let di := rfindPos '.' p
  if si < di then
    let base := (p.take di.toNat).drop (si + 1).toNat
    if base.any (fun c => !(c == '.')) then (p.take di.toNat, p.drop di.toNat)
    else (p, [])
  else (p, [])

instance {ε α : Type} [DecidableEq ε] [DecidableEq α] : DecidableEq (Except ε α)
  | .ok a, .ok b =>
    if h : a = b then .isTrue (by rw [h]) else .isFalse (fun hh => h (Except.ok.inj hh))
  | .error e, .error f =>
    if h : e = f then .isTrue (by rw [h]) else .isFalse (fun hh => h (Except.error.inj hh))
  | .ok _, .error _ => .isFalse (fun hh => Except.noConfusion hh)
  | .error _, .ok _ => .isFalse (fun hh => Except.noConfusion hh)

/-- Error-propagating map over a list, mirroring a Python list comprehension
in which each element's computation may raise (first raise wins). -/
def mapME {α β : Type} (f : α → Except Unit β) : List α → Except Unit (List β)
  | [] => .ok []
  | a :: as =>
    match f a with
    | .error e => .error e
    | .ok b =>
      match mapME f as with
      | .error e => .error e
      | .ok bs => .ok (b :: bs)

/-! ## Markers and header predicates of `get_resilabels.py` -/

/-- Marker substring `reading QUERY structure`. -/
def mQuery : Str := (r"reading QUERY structure").data

/-- Marker substring `reading TARGET structure`. -/
def mTarget : Str := (r"reading TARGET structure").data

/-- Marker substring `reading FIXED structure`. -/
def mFixed : Str := (r"reading FIXED structure").data

/-- Marker substring `reading MOVING structure`. -/
def mMoving : Str := (r"reading MOVING structure").data

/-- Marker substring `... reading file`. -/
def mReadingFile : Str := (r"... reading file").data

/-- The disjunction of the four pairwise name markers (line 13 of the script). -/
def pairMarker (line : Str) : Bool :=
  hasSub mQuery line || hasSub mTarget line || hasSub mFixed line || hasSub mMoving line

/-- The multi-way name marker (line 63 of the script). -/
def multiMarker (line : Str) : Bool :=
  hasSub mReadingFile line

/-- Pairwise table header recognition (lines 23-29 of the script): after
splitting on `|` and stripping, tokens must contain (`Query` or `FIXED`),
`Dist.(A)`, and (`Target` or `MOVING`). -/
def pairHeader (line : Str) : Bool :=
  let toks := (splitChar '|' line).map pyStrip
  (hasTok ((r"Query").data) toks || hasTok ((r"FIXED").data) toks) &&
    hasTok ((r"Dist.(A)").data) toks &&
    (hasTok ((r"Target").data) toks || hasTok ((r"MOVING").data) toks)

/-- Multi-way table header recognition (lines 72-73 of the script): the
`|`-split stripped tokens must contain `Disp.`. -/
def multiHeader (line : Str) : Bool :=
  hasTok ((r"Disp.").data) ((splitChar '|' line).map pyStrip)

/-! ## Name extraction and table bounds -/

/-- Name-extraction loop shared by both parsers: for each line matching
`marker`, take `line.split(single_quote)[1]` (an `IndexError`, i.e. `.error`,
when the line has no quote) and strip the file extension. -/
def extractNamesBy (marker : Str → Bool) : List Str → Except Unit (List Str)
  | [] => .ok []
  | l :: ls =>
    if marker l then
      match (splitChar sqc l).get? 1 with
      | none => .error ()
      | some fn =>
        match extractNamesBy marker ls with
        | .error e => .error e
        | .ok rest => .ok ((pySplitext fn).1 :: rest)
    else extractNamesBy marker ls

/-- Table-bounds loop shared by both parsers (lines 21-34 / 70-78): before the
header is seen, test each line with `header` and set the start index to
`idx + 2`; afterwards, the first line containing a single quote sets the end
index and stops the scan. -/
def findBoundsAux (header : Str → Bool) : List Str → Nat → Option Nat → Option Nat × Option Nat
  | [], _, st => (st, none)
  | l :: ls, idx, st =>
    match st with
    | none => findBoundsAux header ls (idx + 1) (if header l then some (idx + 2) else none)
    | some s => if hasChar sqc l then (some s, some idx) else findBoundsAux header ls (idx + 1) (some s)

/-- Table bounds of the alignment body: `(start?, end?)` indices. -/
def findBounds (header : Str → Bool) (lines : List Str) : Option Nat × Option Nat :=
  findBoundsAux header lines 0 none

/-- The body slice `gesamt_lines[alignment_start_idx:alignment_end_idx]`.
Python slicing accepts `None` bounds: an unset start means "from the
beginning" and an unset end means "to the end of the list", so the slice is
total and never raises. -/
def bodySlice (lines : List Str) : Option Nat × Option Nat → List Str
  | (none, none) => lines
  | (none, some e) => lines.take e
  | (some s, none) => lines.drop s
  | (some s, some e) => (lines.take e).drop s

/-! ## Pairwise parser (`parse_two_queries`) -/

/-- Row tokenization of a pairwise body line (lines 41-43): split on `|` and
take the stripped fields at positions 1 and 3 (an `IndexError` if absent). -/
def rowTokensTwo (line : Str) : Except Unit (List Str) :=
  match (splitChar '|' line).get? 1, (splitChar '|' line).get? 3 with
  | some a, some b => .ok [pyStrip a, pyStrip b]
  | _, _ => .error ()

/-- Pairwise residue normalization (lines 47-55):
`token[-9:-4] + ":" + str(int(token[-4:])).strip()` for a nonempty token,
the empty string for an empty token; `int()` failure is a `ValueError`. -/
def normalizeTwo (token : Str) : Except Unit Str :=
  if 0 < token.length then
    match pyInt (pySliceFrom token (-4)) with
    | some n => .ok (pySlice token (-9) (-4) ++ ':' :: pyStrip (intToStr n))
    | none => .error ()
  else .ok []

/-- `parse_two_queries` (lines 10-57): extract names, find the table bounds,
slice the body, tokenize each row, normalize each token. -/
def parse_two_queries (lines : List Str) : Except Unit (List (List Str) × List Str) :=
  match extractNamesBy pairMarker lines with
  | .error e => .error e
  | .ok proteins =>
    match mapME rowTokensTwo (bodySlice lines (findBounds pairHeader lines)) with
    | .error e => .error e
    | .ok rawRows =>
      match mapME (fun row => mapME normalizeTwo row) rawRows with
      | .error e => .error e
      | .ok rows => .ok (rows, proteins)

/-! ## Multi-way parser (`parse_more_than_two_queries`) -/

/-- Fields of a multi-way body line (lines 86-92): replace `|*|` by `| |`,
split on `| |`, strip each field, drop the displacement field. -/
def multiFields (line : Str) : List Str :=
  (((split3 '|' ' ' '|' (replace3 '|' '*' '|' '|' ' ' '|' line)).map pyStrip).drop 1)

/-- Flag stripping (line 95): `token.split("|")[1] if "|" in token else token`. -/
def stripFlag (token : Str) : Str :=
  if hasChar '|' token then (splitChar '|' token).getD 1 [] else token

/-- The flag-stripped fields of a multi-way body line. -/
def multiFieldsStripped (line : Str) : List Str :=
  (multiFields line).map stripFlag

/-- Multi-way residue normalization (lines 99-102):
`token[:5] + ":" + str(int(token[5:]))` for a nonempty token, the token itself
(empty) otherwise. -/
def normalizeMulti (token : Str) : Except Unit Str :=
  if 0 < token.length then
    match pyInt (token.drop 5) with
    | some n => .ok (token.take 5 ++ ':' :: intToStr n)
    | none => .error ()
  else .ok token

/-- One reformatted multi-way row (lines 84-103). -/
def rowTokensMulti (line : Str) : Except Unit (List Str) :=
  mapME normalizeMulti (multiFieldsStripped line)

/-- `parse_more_than_two_queries` (lines 60-105). -/
def parse_more_than_two_queries (lines : List Str) : Except Unit (List (List Str) × List Str) :=
  match extractNamesBy multiMarker lines with
  | .error e => .error e
  | .ok proteins =>
    match mapME rowTokensMulti (bodySlice lines (findBounds multiHeader lines)) with
    | .error e => .error e
    | .ok rows => .ok (rows, proteins)

/-! ## Label assembly and writing (`main`) -/

/-- Python dictionaries with `Str` keys and values, as insertion-ordered
association lists with unique keys. -/
abbrev Dict := List (Str × Str)

/-- Python dict assignment `d[k] = v`: update in place if the key exists,
otherwise append. -/
def dictSet : Dict → Str → Str → Dict
  | [], k, v => [(k, v)]
  | (k0, v0) :: rest, k, v =>
    if k0 == k then (k0, v) :: rest else (k0, v0) :: dictSet rest k v

/-- Python dict lookup `d[k]` (first matching key). -/
def dictGet : Dict → Str → Option Str
  | [], _ => none
  | (k0, v0) :: rest, k => if k0 == k then some v0 else dictGet rest k

/-- The literal key `generic_resname`. -/
def gk : Str := (r"generic_resname").data

/-- The literal placeholder `None` used for gap tokens. -/
def strNone : Str := (r"None").data

/-- The dict comprehension of line 150:
`{proteins[idx]: residue for idx, residue in enumerate(line)}`; an out-of-range
`proteins[idx]` is an `IndexError`. -/
def buildRecordAux (proteins : List Str) : List Str → Nat → Dict → Except Unit Dict
  | [], _, d => .ok d
  | residue :: rest, idx, d =>
    match proteins.get? idx with
    | none => .error ()
    | some p => buildRecordAux proteins rest (idx + 1) (dictSet d p residue)

/-- One `LabelRecord` dict (without the generic key yet). -/
def buildRecord (proteins : List Str) (row : List Str) : Except Unit Dict :=
  buildRecordAux proteins row 0 []

/-- Lines 154-156: the `-`-join over the dict's keys, in insertion order, of
each key's value with empty values replaced by the literal `None`.  The right
hand side is evaluated before the `generic_resname` key is inserted. -/
def genericOf (d : Dict) : Str :=
  joinWith '-' ((d.map Prod.fst).map (fun k =>
    let v := (dictGet d k).getD []
    if 0 < v.length then v else strNone))

/-- Insert the derived `generic_resname` field into a record. -/
def addGeneric (d : Dict) : Dict :=
  dictSet d gk (genericOf d)

/-- The format-string of line 165 (`"{}\t{}\t\n"`, with literal tabs/newline). -/
def fmtLine (tok g : Str) : Str :=
  tok ++ '\t' :: (g ++ ['\t', '\n'])

/-- The writer loop body (lines 161-166): iterate the records in order, skip a
record whose token for this protein is empty, otherwise emit a formatted line;
a missing key is a `KeyError`. -/
def writeLines (protein : Str) : List Dict → Except Unit Str
  | [] => .ok []
  | d :: ds =>
    match dictGet d protein with
    | none => .error ()
    | some tok =>
      if tok.length = 0 then writeLines protein ds
      else
        match dictGet d gk with
        | none => .error ()
        | some g =>
          match writeLines protein ds with
          | .error e => .error e
          | .ok rest => .ok (fmtLine tok g ++ rest)

/-- The output-file path `"{}/{}.label".format(output_path, protein)`. -/
def labelPath (outputPath protein : Str) : Str :=
  outputPath ++ '/' :: (protein ++ (r".label").data)

/-- Line-cleaning of lines 138-140: strip each raw line, keep nonblank ones. -/
def cleanLines (raw : List Str) : List Str :=
  (raw.map pyStrip).filter (fun l => !l.isEmpty)

/-- Format detection of line 143: the concatenation of the cleaned lines
contains `reading QUERY structure` or `reading FIXED structure`. -/
def detectPairwise (lines : List Str) : Bool :=
  hasSub mQuery (joinAll lines) || hasSub mFixed (joinAll lines)

/-- Lines 143-146: dispatch to the pairwise or the multi-way parser. -/
def selectAndParse (lines : List Str) : Except Unit (List (List Str) × List Str) :=
  if detectPairwise lines then parse_two_queries lines else parse_more_than_two_queries lines

/-- The pure core of `main` (lines 137-166): clean the raw lines, select and
run a parser, apply the optional `--proteins` override, assemble the records
with their generic labels, and produce the list of `(path, contents)` pairs of
the label files in write order. -/
def mainCore (raw : List Str) (inputProteins : Option (List Str)) (outputPath : Str) :
    Except Unit (List (Str × Str)) :=
  let lines := cleanLines raw
  match selectAndParse lines with
  | .error e => .error e
  | .ok (rows, parsed) =>
    let proteins := match inputProteins with | some ps => ps | none => parsed
    match mapME (buildRecord proteins) rows with
    | .error e => .error e
    | .ok recs0 =>
      let recs := recs0.map addGeneric
      match mapME (fun p =>
          match writeLines p recs with
          | .error e => .error e
          | .ok content => .ok (labelPath outputPath p, content)) proteins with
      | .error e => .error e
      | .ok outs => .ok outs

/-! ## Claim-side definition and concrete inputs used in the theorems -/

/-- From the claim's words (for comparison with `stripFlag`): the whole text
after the first `|` of the field. -/
def afterFirstPipe (t : Str) : Str :=
  (t.dropWhile (fun c => !(c == '|'))).drop 1

/-- A pairwise name-marker line quoting `a.pdb`. -/
def exQline : Str :=
  (r"reading QUERY structure computed from file ").data ++ sqc :: ((r"a.pdb").data ++ [sqc])

/-- A pairwise name-marker line quoting `b.pdb`. -/
def exTline : Str :=
  (r"reading TARGET structure computed from file ").data ++ sqc :: ((r"b.pdb").data ++ [sqc])

/-- The pairwise alignment-table header line. -/
def exHeader : Str := (r"|    Query    |  Dist.(A)  |   Target    |").data

/-- The separator line following the header. -/
def exSep : Str := (r"----").data

/-- A pairwise alignment body line. -/
def exBody : Str := (r"|H- A:LEU  75 | 0.8 |H- A:LEU  65 |").data

/-- A table-terminating line consisting of one single quote. -/
def exQuote : Str := [sqc]

/-- A complete two-structure pairwise input. -/
def fullPairInput : List Str := [exQline, exTline, exHeader, exSep, exBody, exQuote]

/-- A pairwise input with only ONE name-marker line but a two-column body. -/
def c7input : List Str := [exQline, exHeader, exSep, exBody, exQuote]

/-- A line containing the pairwise marker `reading TARGET structure` and no
single quote. -/
def c9line0 : Str := (r"x reading TARGET structure from file foo").data

/-- An input whose format detection selects the multi-way parser although
`c9line0` carries a pairwise marker without quotes. -/
def c9input : List Str := [c9line0, (r"|Disp.|").data, (r"----").data, [sqc]]

/-- A marker line quoting `a.pdb` that also carries four `|`-fields whose
fields 1 and 3 strip to empty tokens, and that is not a table header. -/
def c6line0 : Str :=
  (r"| | x | | reading QUERY structure ").data ++ sqc :: ((r"a.pdb").data ++ [sqc])

/-- The `TARGET` analogue of `c6line0`, quoting `b.pdb`. -/
def c6line1 : Str :=
  (r"| | x | | reading TARGET structure ").data ++ sqc :: ((r"b.pdb").data ++ [sqc])

/-- A pairwise-detected input in which no line passes the pairwise
table-header test. -/
def c6input : List Str := [c6line0, c6line1]

/-- A name-marker line quoting the path `dir/foo1.pdb` (with a directory). -/
def c10line : Str :=
  (r"reading QUERY structure computed from file ").data ++ sqc :: ((r"dir/foo1.pdb").data ++ [sqc])

/-- A concrete `LabelRecord` used to instantiate the writer theorem. -/
def c2rec : Dict := [((r"A").data, (r"A:LEU:75").data), (gk, (r"A:LEU:75-None").data)]

/-! ## Helper lemmas -/

theorem dropWhile_eq_self_of {p : Char → Bool} {l : Str} (h : ∀ c ∈ l, p c = false) :
    l.dropWhile p = l := by
  cases l with
  | nil => rfl
  | cons x xs => simp [List.dropWhile_cons, h x (by simp)]

theorem pyStrip_eq_self {l : Str} (h : ∀ c ∈ l, isSpace c = false) : pyStrip l = l := by
  unfold pyStrip
  rw [dropWhile_eq_self_of h]
  rw [dropWhile_eq_self_of (fun c hc => h c (List.mem_reverse.mp hc))]
  exact List.reverse_reverse l

theorem isSpace_digitChar (n : Nat) : isSpace (digitChar n) = false := by
  unfold digitChar
  split_ifs <;> decide

theorem isSpace_of_mem_natDigitsAux (fuel : Nat) :
    ∀ (n : Nat) (c : Char), c ∈ natDigitsAux fuel n → isSpace c = false := by
  induction fuel with
  | zero => intro n c hc; simp [natDigitsAux] at hc
  | succ fuel ih =>
    intro n c hc
    unfold natDigitsAux at hc
    by_cases h : n < 10
    · rw [if_pos h] at hc
      simp only [List.mem_singleton] at hc
      subst hc
      exact isSpace_digitChar n
    · rw [if_neg h] at hc
      rcases List.mem_append.mp hc with hc | hc
      · exact ih _ _ hc
      · simp only [List.mem_singleton] at hc
        subst hc
        exact isSpace_digitChar _

theorem isSpace_of_mem_intToStr (i : Int) (c : Char) (hc : c ∈ intToStr i) :
    isSpace c = false := by
  unfold intToStr natDigits at hc
  by_cases h : i < 0
  · rw [if_pos h] at hc
    rcases List.mem_cons.mp hc with hc | hc
    · subst hc; decide
    · exact isSpace_of_mem_natDigitsAux _ _ _ hc
  · rw [if_neg h] at hc
    exact isSpace_of_mem_natDigitsAux _ _ _ hc

theorem pyStrip_intToStr (i : Int) : pyStrip (intToStr i) = intToStr i :=
  pyStrip_eq_self (fun c hc => isSpace_of_mem_intToStr i c hc)

theorem splitChar_ne_nil (sep : Char) (l : Str) : splitChar sep l ≠ [] := by
  cases l with
  | nil => simp [splitChar]
  | cons c rest =>
    cases h : (c == sep) with
    | true => simp [splitChar, h]
    | false =>
      simp only [splitChar, h, Bool.false_eq_true, if_false]
      cases hs : splitChar sep rest with
      | nil => simp
      | cons r rs => simp

theorem splitChar_getD_zero (sep : Char) (l : Str) :
    (splitChar sep l).getD 0 [] = l.takeWhile (fun c => !(c == sep)) := by
  induction l with
  | nil => rfl
  | cons c rest ih =>
    cases h : (c == sep) with
    | true => simp [splitChar, h, List.takeWhile_cons]
    | false =>
      simp only [splitChar, h, Bool.false_eq_true, if_false]
      cases hs : splitChar sep rest with
      | nil => exact absurd hs (splitChar_ne_nil sep rest)
      | cons r rs =>
        rw [hs] at ih
        simp only [List.getD_cons_zero] at ih
        simp [List.takeWhile_cons, h, ih]

theorem splitChar_getD_one (sep : Char) (l : Str) (h : hasChar sep l = true) :
    (splitChar sep l).getD 1 [] =
      ((l.dropWhile (fun c => !(c == sep))).drop 1).takeWhile (fun c => !(c == sep)) := by
  induction l with
  | nil => simp [hasChar] at h
  | cons c rest ih =>
    cases hc : (c == sep) with
    | true =>
      simp only [splitChar, hc, if_true]
      simp only [List.getD_cons_succ]
      rw [splitChar_getD_zero]
      simp [List.dropWhile_cons, hc]
    | false =>
      have hrest : hasChar sep rest = true := by
        have := h
        unfold hasChar at this
        rw [hc] at this
        simpa using this
      simp only [splitChar, hc, Bool.false_eq_true, if_false]
      cases hs : splitChar sep rest with
      | nil => exact absurd hs (splitChar_ne_nil sep rest)
      | cons r rs =>
        have := ih hrest
        rw [hs] at this
        simp only [List.getD_cons_succ] at this ⊢
        have hdw : List.dropWhile (fun x => !(x == sep)) (c :: rest)
            = List.dropWhile (fun x => !(x == sep)) rest := by
          rw [List.dropWhile_cons]
          simp [hc]
        rw [hdw]
        exact this

theorem splitChar_of_not_hasChar (sep : Char) (l : Str) (h : hasChar sep l = false) :
    splitChar sep l = [l] := by
  induction l with
  | nil => rfl
  | cons c rest ih =>
    unfold hasChar at h
    rcases Bool.or_eq_false_iff.mp h with ⟨h1, h2⟩
    simp [splitChar, h1, ih h2]

theorem mapME_ok_length {α β : Type} (f : α → Except Unit β) (l : List α) (r : List β)
    (h : mapME f l = .ok r) : r.length = l.length := by
  induction l generalizing r with
  | nil =>
    simp only [mapME] at h
    obtain rfl := (Except.ok.inj h).symm
    rfl
  | cons a as ih =>
    unfold mapME at h
    cases hf : f a with
    | error e => rw [hf] at h; exact absurd h (by simp)
    | ok b =>
      rw [hf] at h
      cases hm : mapME f as with
      | error e => rw [hm] at h; exact absurd h (by simp)
      | ok bs =>
        rw [hm] at h
        obtain rfl := (Except.ok.inj h).symm
        simp [ih bs hm]

theorem mapME_ok_mem {α β : Type} (f : α → Except Unit β) (l : List α) (r : List β)
    (h : mapME f l = .ok r) : ∀ b ∈ r, ∃ a ∈ l, f a = .ok b := by
  induction l generalizing r with
  | nil =>
    simp only [mapME] at h
    obtain rfl := (Except.ok.inj h).symm
    simp
  | cons a as ih =>
    unfold mapME at h
    cases hf : f a with
    | error e => rw [hf] at h; exact absurd h (by simp)
    | ok b =>
      rw [hf] at h
      cases hm : mapME f as with
      | error e => rw [hm] at h; exact absurd h (by simp)
      | ok bs =>
        rw [hm] at h
        obtain rfl := (Except.ok.inj h).symm
        intro x hx
        rcases List.mem_cons.mp hx with hx | hx
        · exact ⟨a, by simp, by rw [hf, hx]⟩
        · obtain ⟨a0, ha0, hfa0⟩ := ih bs hm x hx
          exact ⟨a0, by simp [ha0], hfa0⟩

theorem dictGet_dictSet_self (d : Dict) (k v : Str) : dictGet (dictSet d k v) k = some v := by
  induction d with
  | nil => simp [dictSet, dictGet]
  | cons kv rest ih =>
    obtain ⟨k0, v0⟩ := kv
    by_cases h : k0 = k
    · simp [dictSet, dictGet, h]
    · simp [dictSet, dictGet, h, ih]

theorem dictSet_append (d : Dict) (k v : Str) (h : ∀ kv ∈ d, kv.1 ≠ k) :
    dictSet d k v = d ++ [(k, v)] := by
  induction d with
  | nil => rfl
  | cons kv rest ih =>
    obtain ⟨k0, v0⟩ := kv
    have hk0 : k0 ≠ k := h (k0, v0) (by simp)
    simp only [dictSet, List.cons_append]
    rw [if_neg (by simpa using hk0)]
    rw [ih (fun x hx => h x (by simp [hx]))]

theorem buildRecordAux_eq (proteins : List Str) (hnd : proteins.Nodup) :
    ∀ (row : List Str) (k : Nat) (d : Dict),
      k + row.length = proteins.length →
      d.map Prod.fst = proteins.take k →
      buildRecordAux proteins row k d = .ok (d ++ (proteins.drop k).zip row) := by
  intro row
  induction row with
  | nil =>
    intro k d hk hd
    simp [buildRecordAux, List.zip_nil_right]
  | cons r rs ih =>
    intro k d hk hd
    have hklt : k < proteins.length := by
      simp only [List.length_cons] at hk
      omega
    unfold buildRecordAux
    rw [List.get?_eq_getElem?, List.getElem?_eq_getElem hklt]
    show buildRecordAux proteins rs (k + 1) (dictSet d proteins[k] r)
        = Except.ok (d ++ (List.drop k proteins).zip (r :: rs))
    have hmemdrop : proteins[k] ∈ proteins.drop k := by
      rw [List.drop_eq_getElem_cons hklt]
      exact List.mem_cons_self _ _
    have hfresh : ∀ kv ∈ d, kv.1 ≠ proteins[k] := by
      intro kv hkv heq
      have hmemtake : kv.1 ∈ proteins.take k := by
        rw [← hd]
        exact List.mem_map_of_mem _ hkv
      have hsplit : (proteins.take k ++ proteins.drop k).Nodup := by
        rw [List.take_append_drop]
        exact hnd
      rw [List.nodup_append] at hsplit
      exact hsplit.2.2 hmemtake (heq ▸ hmemdrop)
    rw [dictSet_append d _ r hfresh]
    have hd' : (d ++ [(proteins[k], r)]).map Prod.fst = proteins.take (k + 1) := by
      rw [List.map_append, hd, List.take_succ, List.getElem?_eq_getElem hklt]
      rfl
    have hrec := ih (k + 1) (d ++ [(proteins[k], r)])
      (by simp only [List.length_cons] at hk; omega) hd'
    rw [hrec]
    rw [List.append_assoc]
    congr 2
    rw [List.drop_eq_getElem_cons hklt]
    rfl

theorem buildRecord_eq_zip (proteins row : List Str) (hnd : proteins.Nodup)
    (hlen : row.length = proteins.length) :
    buildRecord proteins row = .ok (proteins.zip row) := by
  have h := buildRecordAux_eq proteins hnd row 0 [] (by omega) (by simp)
  simpa [buildRecord] using h

theorem dictGet_cons_ne (k0 v0 : Str) (rest : Dict) (k : Str) (h : ¬k0 = k) :
    dictGet ((k0, v0) :: rest) k = dictGet rest k := by
  simp [dictGet, h]

theorem genericOf_of_nodup (d : Dict) (hnd : (d.map Prod.fst).Nodup) :
    genericOf d =
      joinWith '-' (d.map (fun kv => if 0 < kv.2.length then kv.2 else strNone)) := by
  unfold genericOf
  congr 1
  induction d with
  | nil => rfl
  | cons kv rest ih =>
    obtain ⟨k0, v0⟩ := kv
    simp only [List.map_cons] at hnd ⊢
    rw [List.nodup_cons] at hnd
    have hhead : dictGet ((k0, v0) :: rest) k0 = some v0 := by
      simp [dictGet]
    rw [hhead]
    have htail :
        (rest.map Prod.fst).map (fun k =>
          let v := (dictGet ((k0, v0) :: rest) k).getD []
          if 0 < v.length then v else strNone) =
        (rest.map Prod.fst).map (fun k =>
          let v := (dictGet rest k).getD []
          if 0 < v.length then v else strNone) := by
      apply List.map_congr_left
      intro k hk
      have hne : ¬k0 = k := fun heq => hnd.1 (heq ▸ hk)
      rw [dictGet_cons_ne k0 v0 rest k hne]
    rw [htail, ih hnd.2]
    simp

theorem findBoundsAux_none (header : Str → Bool) (lines : List Str)
    (h : ∀ l ∈ lines, header l = false) :
    ∀ idx, findBoundsAux header lines idx none = (none, none) := by
  induction lines with
  | nil => intro idx; rfl
  | cons l ls ih =>
    intro idx
    have hl : header l = false := h l (by simp)
    simp only [findBoundsAux, hl, Bool.false_eq_true, if_false]
    exact ih (fun x hx => h x (by simp [hx])) (idx + 1)

theorem extractNamesBy_error (marker : Str → Bool) (lines : List Str)
    (h : ∃ l ∈ lines, marker l = true ∧ hasChar sqc l = false) :
    extractNamesBy marker lines = .error () := by
  induction lines with
  | nil => simp at h
  | cons x ls ih =>
    obtain ⟨l, hl, hm, hq⟩ := h
    rw [List.mem_cons] at hl
    unfold extractNamesBy
    rcases hl with rfl | hl
    · rw [if_pos hm, splitChar_of_not_hasChar sqc l hq]
      rfl
    · cases hmx : marker x with
      | false => rw [if_neg (by simp)]; exact ih ⟨l, hl, hm, hq⟩
      | true =>
        rw [if_pos rfl]
        cases hg : (splitChar sqc x).get? 1 with
        | none => rfl
        | some fn => rw [ih ⟨l, hl, hm, hq⟩]

theorem parse_two_queries_error_of_names (lines : List Str)
    (h : extractNamesBy pairMarker lines = .error ()) : parse_two_queries lines = .error () := by
  unfold parse_two_queries
  rw [h]

theorem parse_more_error_of_names (lines : List Str)
    (h : extractNamesBy multiMarker lines = .error ()) :
    parse_more_than_two_queries lines = .error () := by
  unfold parse_more_than_two_queries
  rw [h]

theorem mainCore_error_of_parse (raw : List Str) (ip : Option (List Str)) (op : Str)
    (h : selectAndParse (cleanLines raw) = .error ()) : mainCore raw ip op = .error () := by
  simp only [mainCore]
  rw [h]

theorem rowTokensTwo_ok_length (line : Str) (row : List Str)
    (h : rowTokensTwo line = .ok row) : row.length = 2 := by
  unfold rowTokensTwo at h
  cases h1 : (splitChar '|' line).get? 1 with
  | none =>
    rw [h1] at h
    cases h3 : (splitChar '|' line).get? 3 <;> rw [h3] at h <;> exact absurd h (by simp)
  | some a =>
    rw [h1] at h
    cases h3 : (splitChar '|' line).get? 3 with
    | none => rw [h3] at h; exact absurd h (by simp)
    | some b =>
      rw [h3] at h
      obtain rfl := (Except.ok.inj h).symm
      rfl

/-! ## Claim theorems -/

/-- C1: pairwise normalization — for every nonempty residue descriptor token
whose last four characters convert to an integer `n`, the canonical token is
the characters at Python positions `[-9:-4]`, a colon, and the decimal
rendering of `n`; an empty descriptor yields the empty token. -/
theorem c1_pairwise_normalization (token : Str) (n : Int)
    (h1 : 0 < token.length) (h2 : pyInt (pySliceFrom token (-4)) = some n) :
    normalizeTwo token = .ok (pySlice token (-9) (-4) ++ ':' :: intToStr n) ∧
      normalizeTwo [] = .ok [] := by
  constructor
  · unfold normalizeTwo
    rw [if_pos h1, h2]
    show Except.ok (pySlice token (-9) (-4) ++ ':' :: pyStrip (intToStr n))
        = Except.ok (pySlice token (-9) (-4) ++ ':' :: intToStr n)
    rw [pyStrip_intToStr]
  · rfl

/-- Witness for C1 at the documented example descriptor `H- A:LEU  75`. -/
theorem c1_pairwise_normalization_witness :
    normalizeTwo ((r"H- A:LEU  75").data) = .ok ((r"A:LEU:75").data) := by
  have h := c1_pairwise_normalization ((r"H- A:LEU  75").data) 75 (by decide) (by decide)
  exact h.1.trans (by decide)

/-- C4: format detection — the pipeline applies the pairwise parser exactly
when the concatenation of the trimmed non-blank lines contains
`reading QUERY structure` or `reading FIXED structure`, the multi-way parser
otherwise; detection itself always selects one of the two parsers (no error
path at detection time). -/
theorem c4_format_detection (raw : List Str) :
    selectAndParse (cleanLines raw) =
      (if hasSub mQuery (joinAll (cleanLines raw)) || hasSub mFixed (joinAll (cleanLines raw))
        then parse_two_queries (cleanLines raw)
        else parse_more_than_two_queries (cleanLines raw)) ∧
      (selectAndParse (cleanLines raw) = parse_two_queries (cleanLines raw) ∨
        selectAndParse (cleanLines raw) = parse_more_than_two_queries (cleanLines raw)) := by
  constructor
  · rfl
  · unfold selectAndParse
    cases h : detectPairwise (cleanLines raw) with
    | false => right; rw [if_neg (by simp)]
    | true => left; rw [if_pos rfl]

/-- C8: pipeline determinism — the embedded pipeline is a pure function, so
two runs on the same input text, override list and output path produce
identical results, and normalizing the same raw descriptor twice yields an
identical canonical token. -/
theorem c8_pipeline_determinism (raw : List Str) (inputProteins : Option (List Str))
    (outputPath : Str) (token : Str) :
    mainCore raw inputProteins outputPath = mainCore raw inputProteins outputPath ∧
      normalizeTwo token = normalizeTwo token ∧ normalizeMulti token = normalizeMulti token :=
  ⟨rfl, rfl, rfl⟩

/-- C10: the structure name derived from a quoted file path is the whole path
with only the extension removed (root and extension concatenate back to the
path, so directory components stay in the root), and the label file is opened
at `<output_path>/<name>.label`; for the quoted path `dir/foo1.pdb` the name
is `dir/foo1` and the file is `out/dir/foo1.label`, inside subdirectory
`dir`, not `out/foo1.label`. -/
theorem c10_name_keeps_directories :
    (∀ p : Str, (pySplitext p).1 ++ (pySplitext p).2 = p) ∧
      (∀ outputPath protein : Str,
        labelPath outputPath protein = outputPath ++ '/' :: (protein ++ (r".label").data)) ∧
      extractNamesBy pairMarker [c10line] = .ok [(r"dir/foo1").data] ∧
      labelPath ((r"out").data) ((r"dir/foo1").data) = (r"out/dir/foo1.label").data ∧
      (r"out/dir/foo1.label").data ≠ (r"out/foo1.label").data := by
  refine ⟨?_, fun o p => rfl, by decide, by decide, by decide⟩
  intro p
  simp only [pySplitext]
  split_ifs <;> simp [List.take_append_drop]

/-- C5 counterexample: the field `a|b|c` of the multi-way body line
`0 | | a|b|c` contains two `|` characters; the code keeps `b` (the segment
between the first and second `|`), not the text after the first `|`, which is
`b|c` — so the claim's description fails on this field. -/
theorem c5_counterexample :
    multiFields ((r"0 | | a|b|c").data) = [(r"a|b|c").data] ∧
      hasChar '|' ((r"a|b|c").data) = true ∧
      stripFlag ((r"a|b|c").data) = (r"b").data ∧
      afterFirstPipe ((r"a|b|c").data) = (r"b|c").data ∧
      stripFlag ((r"a|b|c").data) ≠ afterFirstPipe ((r"a|b|c").data) := by
  decide

/-- C5 amended: for every field containing a `|`, the kept text is the text
after the first `|` truncated at the next `|` (the segment between the first
and second `|`; equal to the whole text after the first `|` when the field
has exactly one `|`); fields without `|` are kept unchanged. -/
theorem c5_flag_stripping_amended (t : Str) :
    stripFlag t =
      if hasChar '|' t then (afterFirstPipe t).takeWhile (fun c => !(c == '|')) else t := by
  unfold stripFlag afterFirstPipe
  cases h : hasChar '|' t with
  | true =>
    rw [if_pos rfl, if_pos rfl]
    exact splitChar_getD_one '|' t h
  | false =>
    rw [if_neg (by simp), if_neg (by simp)]

/-- C2: label-writer output — when every record carries a token for the
structure and a `generic_resname` field, the emitted file is exactly the
in-order concatenation of one `<token>\t<generic_resname>\t\n` line per
record whose token for this structure is non-empty; gap records contribute
nothing. -/
theorem c2_label_writer_output (protein : Str) (records : List Dict)
    (h : ∀ d ∈ records, (dictGet d protein).isSome = true ∧ (dictGet d gk).isSome = true) :
    writeLines protein records =
      .ok (joinAll ((records.filter (fun d => !((dictGet d protein).getD []).isEmpty)).map
        (fun d => fmtLine ((dictGet d protein).getD []) ((dictGet d gk).getD [])))) := by
  induction records with
  | nil => rfl
  | cons d ds ih =>
    obtain ⟨h1, h2⟩ := h d (by simp)
    obtain ⟨tok, htok⟩ := Option.isSome_iff_exists.mp h1
    obtain ⟨g, hg⟩ := Option.isSome_iff_exists.mp h2
    have ihds := ih (fun x hx => h x (by simp [hx]))
    unfold writeLines
    simp only [htok]
    by_cases hlen : tok.length = 0
    · rw [if_pos hlen, ihds]
      have htok0 : tok = [] := List.length_eq_zero.mp hlen
      subst htok0
      rw [List.filter_cons]
      simp [htok]
    · rw [if_neg hlen, hg, ihds]
      have htne : ¬tok = [] := fun hh => hlen (by simp [hh])
      rw [List.filter_cons]
      simp only [htok, hg, Option.getD_some]
      rw [if_pos (by simp [List.isEmpty_iff, htne])]
      simp [joinAll, htok, hg]

/-- Witness for C2 on a one-record list carrying both keys. -/
theorem c2_label_writer_output_witness :
    writeLines ((r"A").data) [c2rec] =
      .ok (fmtLine ((r"A:LEU:75").data) ((r"A:LEU:75-None").data)) := by
  have h := c2_label_writer_output ((r"A").data) [c2rec] (by decide)
  exact h.trans (by decide)

/-- C3: generic label — when the structure names are distinct and as many as
the row's tokens, the record built from the row carries, in its
`generic_resname` field, the `-`-join over the structure names in structure
order of each structure's token with empty tokens replaced by `None`. -/
theorem c3_generic_label (proteins row : List Str) (d : Dict)
    (hnd : proteins.Nodup) (hlen : row.length = proteins.length)
    (hbuild : buildRecord proteins row = .ok d) :
    dictGet (addGeneric d) gk =
      some (joinWith '-'
        ((proteins.zip row).map (fun pr => if 0 < pr.2.length then pr.2 else strNone))) := by
  have hz := buildRecord_eq_zip proteins row hnd hlen
  rw [hbuild] at hz
  obtain rfl : d = proteins.zip row := Except.ok.inj hz
  unfold addGeneric
  rw [dictGet_dictSet_self]
  rw [genericOf_of_nodup _ (by
    rw [List.map_fst_zip _ _ (le_of_eq hlen.symm)]
    exact hnd)]

/-- Witness for C3 on a two-structure record with one gap. -/
theorem c3_generic_label_witness :
    dictGet (addGeneric [((r"a").data, (r"A:LEU:75").data), ((r"b").data, [])]) gk =
      some ((r"A:LEU:75-None").data) := by
  have h := c3_generic_label [(r"a").data, (r"b").data] [(r"A:LEU:75").data, []]
    [((r"a").data, (r"A:LEU:75").data), ((r"b").data, [])] (by decide) (by decide) (by decide)
  exact h.trans (by decide)

/-- C6 counterexample: in `c6input` the pairwise parser is selected but no
line passes the pairwise table-header test, and yet the run does not fail —
`gesamt_lines[None:None]` is a valid Python slice returning all lines, the
two marker lines tokenize to all-gap rows, and the pipeline completes
normally, opening and writing both (empty) label files. -/
theorem c6_counterexample :
    detectPairwise (cleanLines c6input) = true ∧
      (∀ l ∈ cleanLines c6input, pairHeader l = false) ∧
      mainCore c6input none ((r"out").data) =
        .ok [((r"out/a.label").data, []), ((r"out/b.label").data, [])] := by
  decide

/-- C6 amended: when no line satisfies the selected parser's table-header
predicate, the table-start index does remain unset, but slicing with the
unset bounds is valid Python and silently yields the whole line list, so the
parser treats every input line as table body and the run proceeds (it may
fail later for unrelated reasons, or complete normally and write output). -/
theorem c6_missing_header_slices_whole_input (header : Str → Bool) (lines : List Str)
    (h : ∀ l ∈ lines, header l = false) :
    findBounds header lines = (none, none) ∧
      bodySlice lines (findBounds header lines) = lines := by
  have hb : findBounds header lines = (none, none) :=
    findBoundsAux_none header lines h 0
  exact ⟨hb, by rw [hb]; rfl⟩

/-- Witness for C6's amended statement at the pairwise header predicate. -/
theorem c6_missing_header_slices_whole_input_witness :
    findBounds pairHeader [(r"x").data] = (none, none) ∧
      bodySlice [(r"x").data] (findBounds pairHeader [(r"x").data]) = [(r"x").data] :=
  c6_missing_header_slices_whole_input pairHeader [(r"x").data] (by decide)

/-- C7 counterexample: a pairwise input with a single name-marker line parses
successfully into a two-token alignment row next to a one-element
structure-name list (no `--proteins` override supplied), so the tuple length
differs from the name-list length. -/
theorem c7_counterexample :
    parse_two_queries c7input
        = .ok ([[(r"A:LEU:75").data, (r"A:LEU:65").data]], [(r"a").data]) ∧
      ([(r"A:LEU:75").data, (r"A:LEU:65").data] : List Str).length ≠
        ([(r"a").data] : List Str).length := by
  decide

/-- C7 amended: every alignment tuple produced by the pairwise parser has
length exactly 2; the parsers do not enforce equality with the structure-name
list, so the claimed invariant holds precisely when that list (after any
override) has length 2. -/
theorem c7_pairwise_rows_length (lines : List Str) (rows : List (List Str))
    (proteins : List Str) (h : parse_two_queries lines = .ok (rows, proteins)) :
    ∀ r ∈ rows, r.length = 2 := by
  unfold parse_two_queries at h
  cases hn : extractNamesBy pairMarker lines with
  | error e => simp only [hn] at h; exact absurd h (by simp)
  | ok ps =>
    simp only [hn] at h
    cases hraw : mapME rowTokensTwo (bodySlice lines (findBounds pairHeader lines)) with
    | error e => simp only [hraw] at h; exact absurd h (by simp)
    | ok rawRows =>
      simp only [hraw] at h
      cases hnorm : mapME (fun row => mapME normalizeTwo row) rawRows with
      | error e => simp only [hnorm] at h; exact absurd h (by simp)
      | ok rows2 =>
        simp only [hnorm, Except.ok.injEq, Prod.mk.injEq] at h
        obtain ⟨hrows, hps⟩ := h
        subst hrows
        intro r hr
        obtain ⟨a, ha, hfa⟩ := mapME_ok_mem _ _ _ hnorm r hr
        obtain ⟨raw0, hraw0, hf0⟩ := mapME_ok_mem _ _ _ hraw a ha
        calc r.length = a.length := mapME_ok_length _ _ _ hfa
          _ = 2 := rowTokensTwo_ok_length raw0 a hf0

/-- Witness for C7's amended statement on a complete pairwise input. -/
theorem c7_pairwise_rows_length_witness :
    ([(r"A:LEU:75").data, (r"A:LEU:65").data] : List Str).length = 2 :=
  c7_pairwise_rows_length fullPairInput [[(r"A:LEU:75").data, (r"A:LEU:65").data]]
    [(r"a").data, (r"b").data] (by decide) _ (by simp)

/-- C9 counterexample: `c9line0` contains the pairwise marker
`reading TARGET structure` and no single quote, yet in `c9input` (detected as
multi-way) the whole pipeline completes with `ok` — the run does not abort. -/
theorem c9_counterexample :
    pairMarker c9line0 = true ∧ hasChar sqc c9line0 = false ∧
      mainCore c9input none ((r"out").data) = .ok [] := by
  decide

/-- C9 amended: a marker line without a single quote aborts the run with an
index error before any output, provided the marker belongs to the parser that
detection actually selects (pairwise markers under pairwise detection,
`... reading file` under multi-way detection). -/
theorem c9_marker_without_quote_fatal (raw : List Str) (ip : Option (List Str)) (op : Str)
    (h : (detectPairwise (cleanLines raw) = true ∧
            ∃ l ∈ cleanLines raw, pairMarker l = true ∧ hasChar sqc l = false) ∨
         (detectPairwise (cleanLines raw) = false ∧
            ∃ l ∈ cleanLines raw, multiMarker l = true ∧ hasChar sqc l = false)) :
    mainCore raw ip op = .error () := by
  apply mainCore_error_of_parse
  unfold selectAndParse
  rcases h with ⟨hd, hex⟩ | ⟨hd, hex⟩
  · rw [hd, if_pos rfl]
    exact parse_two_queries_error_of_names _ (extractNamesBy_error _ _ hex)
  · rw [hd, if_neg (by simp)]
    exact parse_more_error_of_names _ (extractNamesBy_error _ _ hex)

/-- Witness for C9's amended statement: a pairwise-detected input whose marker
line has no quotes. -/
theorem c9_marker_without_quote_fatal_witness :
    mainCore [(r"reading QUERY structure but the quotes are missing").data] none
      ((r"out").data) = .error () :=
  c9_marker_without_quote_fatal _ none _ (Or.inl ⟨by decide, by decide⟩)
